import Mathlib

set_option maxRecDepth 100000

/-!
Verification of the Display Manager core (wire framing, CRC16-CCITT,
byte-fed parser, frame encoder, dispatcher/binder handlers).

Shallow embedding of the C sources:
  src/core/crc16.c       – crc16_update / crc16_ccitt
  src/core/dm_parser.c   – dm_parser_t, dm_parser_init, dm_parser_feed
  src/core/dm_packet.c   – dm_packet_send and the event wrappers
  src/app/dm_binder.c    – dm_handle_show_page
  src/app/ui/ui_pages.c  – ui_pages_show (page registry part)

Machine integers are modelled as Nat with explicit masking where the C
truncates (uint16_t CRC arithmetic is masked with 0xFFFF; the 8-bit event
sequence counter wraps modulo 256).  The parser statistics counters are
uint32_t in C; no claim involves more than a handful of increments, so
overflow cannot matter and they are modelled as plain Nat.
Byte parameters (uint8_t in C) are Nats constrained to be < 256 in the
theorem hypotheses.  Calls to dm_protocol_dispatch are modelled as a trace
field on the parser record; calls to platform write_bytes are modelled as
the list of buffers passed, in call order.  The platform log slot only
produces debug output and is not modelled.
-/

/- ── Compile-time constants (src/core/dm_config.h, dm_protocol.h) ───────── -/

def DM_MAX_PAYLOAD : Nat := 128

def DM_PROTOCOL_VERSION : Nat := 0x01

def DM_START_BYTE : Nat := 0xAA

def DM_HEADER_SIZE : Nat := 5

def DM_CRC_SIZE : Nat := 2

def DM_MAX_FRAME_SIZE : Nat := DM_HEADER_SIZE + DM_MAX_PAYLOAD + DM_CRC_SIZE

def CMD_PING : Nat := 0x01

def CMD_SHOW_PAGE : Nat := 0x10

def EVT_BUTTON_PRESSED : Nat := 0x80

def EVT_SLIDER_CHANGED : Nat := 0x81

def EVT_PAGE_CHANGED : Nat := 0x82

def EVT_TOUCH_EVENT : Nat := 0x83

def EVT_ACK : Nat := 0xF0

def EVT_NACK : Nat := 0xF1

/- ── CRC16-CCITT (src/core/crc16.c) ─────────────────────────────────────── -/

/-- One iteration of the inner loop of crc16_update: shift left, and on a
set high bit XOR in the polynomial 0x1021.  The uint16_t assignment in C
truncates to 16 bits, modelled by the 0xFFFF mask. -/
def crc16_round (crc : Nat) : Nat :=
  if crc &&& 0x8000 ≠ 0 then ((crc <<< 1) ^^^ 0x1021) &&& 0xFFFF
  else (crc <<< 1) &&& 0xFFFF

/-- crc16_update from crc16.c: XOR the byte into the high half, then run
the shift/XOR loop 8 times. -/
def crc16_update (crc byte : Nat) : Nat :=
  crc16_round^[8] (crc ^^^ (byte <<< 8))

/-- crc16_ccitt from crc16.c: fold crc16_update over the data starting
from the seed 0xFFFF. -/
def crc16_ccitt (data : List Nat) : Nat :=
  data.foldl crc16_update 0xFFFF

/- ── Parser (src/core/dm_parser.h / dm_parser.c) ────────────────────────── -/

/-- dm_parse_state_t from dm_parser.h. -/
inductive dm_parse_state_t where
  | PARSE_WAIT_START
  | PARSE_VERSION
  | PARSE_COMMAND
  | PARSE_SEQ_ID
  | PARSE_LENGTH
  | PARSE_PAYLOAD
  | PARSE_CRC_HIGH
  | PARSE_CRC_LOW
deriving DecidableEq, Repr

/-- dm_frame_t from dm_parser.h.  The fixed uint8_t payload[DM_MAX_PAYLOAD]
buffer is modelled as a list that dm_parser_init fills with 128 zeros
(memset) and that the parser mutates in place via List.set. -/
structure dm_frame_t where
  version : Nat
  command : Nat
  seq_id : Nat
  payload_len : Nat
  payload : List Nat
deriving DecidableEq, Repr

/-- dm_parser_t from dm_parser.h, extended with a trace of the frames the
parser handed to dm_protocol_dispatch (instrumentation of the dispatch
call in the PARSE_CRC_LOW branch). -/
structure dm_parser_t where
  state : dm_parse_state_t
  frame : dm_frame_t
  payload_index : Nat
  running_crc : Nat
  crc_high : Nat
  frames_ok : Nat
  frames_crc_err : Nat
  frames_len_err : Nat
  dispatched : List dm_frame_t
deriving DecidableEq, Repr

/-- parser_reset from dm_parser.c: back to WAIT_START with a fresh CRC
accumulator; counters, frame fields and the dispatch trace are untouched. -/
def parser_reset (p : dm_parser_t) : dm_parser_t :=
  { p with
    state := .PARSE_WAIT_START
    payload_index := 0
    running_crc := 0xFFFF
    crc_high := 0 }

/-- dm_parser_init from dm_parser.c: memset to zero, then parser_reset. -/
def dm_parser_init : dm_parser_t :=
  parser_reset
    { state := .PARSE_WAIT_START
      frame :=
        { version := 0, command := 0, seq_id := 0, payload_len := 0
          payload := List.replicate DM_MAX_PAYLOAD 0 }
      payload_index := 0
      running_crc := 0
      crc_high := 0
      frames_ok := 0
      frames_crc_err := 0
      frames_len_err := 0
      dispatched := [] }

/-- dm_parser_feed from dm_parser.c.  The plat argument of the C function
is used only for debug logging and as the dispatch target; dispatch is
recorded in the trace field instead. -/
def dm_parser_feed (p : dm_parser_t) (byte : Nat) : dm_parser_t :=
  match p.state with
  | .PARSE_WAIT_START =>
      if byte = DM_START_BYTE then
        { parser_reset p with state := .PARSE_VERSION }
      else
        p
  | .PARSE_VERSION =>
      { p with
        frame := { p.frame with version := byte }
        running_crc := crc16_update p.running_crc byte
        state := .PARSE_COMMAND }
  | .PARSE_COMMAND =>
      { p with
        frame := { p.frame with command := byte }
        running_crc := crc16_update p.running_crc byte
        state := .PARSE_SEQ_ID }
  | .PARSE_SEQ_ID =>
      { p with
        frame := { p.frame with seq_id := byte }
        running_crc := crc16_update p.running_crc byte
        state := .PARSE_LENGTH }
  | .PARSE_LENGTH =>
      if byte > DM_MAX_PAYLOAD then
        parser_reset { p with frames_len_err := p.frames_len_err + 1 }
      else
        let q : dm_parser_t :=
          { p with
            frame := { p.frame with payload_len := byte }
            running_crc := crc16_update p.running_crc byte
            payload_index := 0 }
        if byte = 0 then { q with state := .PARSE_CRC_HIGH }
        else { q with state := .PARSE_PAYLOAD }
  | .PARSE_PAYLOAD =>
      let q : dm_parser_t :=
        { p with
          frame := { p.frame with payload := p.frame.payload.set p.payload_index byte }
          payload_index := p.payload_index + 1
          running_crc := crc16_update p.running_crc byte }
      if q.payload_index ≥ q.frame.payload_len then { q with state := .PARSE_CRC_HIGH }
      else q
  | .PARSE_CRC_HIGH =>
      { p with crc_high := byte, state := .PARSE_CRC_LOW }
  | .PARSE_CRC_LOW =>
      let received_crc := (p.crc_high <<< 8) ||| byte
      if received_crc = p.running_crc then
        parser_reset
          { p with
            frames_ok := p.frames_ok + 1
            dispatched := p.dispatched ++ [p.frame] }
      else
        parser_reset { p with frames_crc_err := p.frames_crc_err + 1 }

/-- Feed a whole byte stream, one byte at a time, in order. -/
def dm_parser_feed_all (p : dm_parser_t) (bytes : List Nat) : dm_parser_t :=
  bytes.foldl dm_parser_feed p

/- ── Platform and encoder (src/core/dm_platform.h, dm_packet.c) ─────────── -/

/-- Model of the dm_platform_t vtable: only slot nullness matters to the
control flow of the core (the slots' effects are modelled as traces). -/
structure dm_platform_t where
  write_bytes : Bool
  log : Bool
deriving DecidableEq, Repr

/-- The frame buffer dm_packet_send builds: start byte, header, payload
copy, then the big-endian CRC over bytes 1..idx-1 (VERSION..PAYLOAD).
A none payload models a NULL payload pointer: the memcpy is skipped
entirely (even when the clamped length is nonzero). -/
def dm_packet_build (cmd seq : Nat) (payload : Option (List Nat))
    (payload_len : Nat) : List Nat :=
  let len := min payload_len DM_MAX_PAYLOAD
  let body : List Nat :=
    match payload with
    | none => []
    | some bytes => bytes.take len
  let hdr : List Nat := [DM_START_BYTE, DM_PROTOCOL_VERSION, cmd, seq, len]
  let crc := crc16_ccitt (hdr.drop 1 ++ body)
  hdr ++ body ++ [crc >>> 8, crc &&& 0xFF]

/-- dm_packet_send from dm_packet.c: NULL platform or NULL write_bytes slot
is a silent no-op; otherwise exactly one write_bytes call with the whole
frame buffer.  The result is the list of write_bytes calls made. -/
def dm_packet_send (cmd seq : Nat) (payload : Option (List Nat))
    (payload_len : Nat) (plat : Option dm_platform_t) : List (List Nat) :=
  match plat with
  | none => []
  | some pl =>
      if pl.write_bytes then [dm_packet_build cmd seq payload payload_len]
      else []

/-- dm_packet_send_ack from dm_packet.c. -/
def dm_packet_send_ack (seq : Nat) (plat : Option dm_platform_t)
    (payload : Option (List Nat)) (payload_len : Nat) : List (List Nat) :=
  dm_packet_send EVT_ACK seq payload payload_len plat

/-- dm_packet_send_nack from dm_packet.c. -/
def dm_packet_send_nack (seq : Nat) (plat : Option dm_platform_t) : List (List Nat) :=
  dm_packet_send EVT_NACK seq none 0 plat

/-- Big-endian byte pair of an int16_t value, as produced by the
(value >> 8) & 0xFF / value & 0xFF idiom in dm_packet.c. -/
def int16_bytes (value : Int) : List Nat :=
  let u := (value.emod 65536).toNat
  [u / 256, u % 256]

/-- dm_packet_send_button_pressed: the global uint8_t s_seq_counter is
threaded explicitly; the post-increment wraps modulo 256 and happens even
when the platform is unusable (argument evaluation precedes the call). -/
def dm_packet_send_button_pressed (widget_idx : Nat) (seqc : Nat)
    (plat : Option dm_platform_t) : List (List Nat) × Nat :=
  (dm_packet_send EVT_BUTTON_PRESSED seqc (some [widget_idx]) 1 plat,
   (seqc + 1) % 256)

/-- dm_packet_send_slider_changed from dm_packet.c. -/
def dm_packet_send_slider_changed (widget_idx : Nat) (value : Int) (seqc : Nat)
    (plat : Option dm_platform_t) : List (List Nat) × Nat :=
  (dm_packet_send EVT_SLIDER_CHANGED seqc
     (some (widget_idx :: int16_bytes value)) 3 plat,
   (seqc + 1) % 256)

/-- dm_packet_send_page_changed from dm_packet.c. -/
def dm_packet_send_page_changed (page_id : Nat) (seqc : Nat)
    (plat : Option dm_platform_t) : List (List Nat) × Nat :=
  (dm_packet_send EVT_PAGE_CHANGED seqc (some [page_id]) 1 plat,
   (seqc + 1) % 256)

/-- dm_packet_send_touch_event from dm_packet.c. -/
def dm_packet_send_touch_event (x y : Int) (seqc : Nat)
    (plat : Option dm_platform_t) : List (List Nat) × Nat :=
  (dm_packet_send EVT_TOUCH_EVENT seqc
     (some (int16_bytes x ++ int16_bytes y)) 4 plat,
   (seqc + 1) % 256)

/- ── UI pages (src/app/ui/ui_pages.c, page registry part) ───────────────── -/

/-- The page-registry part of the ui_pages.c state: how many pages were
registered at init, and which is currently shown (0xFF before the first
show).  The LVGL objects themselves are outside the core contract. -/
structure ui_pages_state_t where
  page_count : Nat
  current_page : Nat
deriving DecidableEq, Repr

/-- ui_pages_show from ui_pages.c: an out-of-range page id fails without
touching the state; otherwise the page is loaded (lv_scr_load, a pure UI
side effect) and recorded as current. -/
def ui_pages_show (page_id : Nat) (ui : ui_pages_state_t) : Bool × ui_pages_state_t :=
  if page_id ≥ ui.page_count then (false, ui)
  else (true, { ui with current_page := page_id })

/- ── Binder (src/app/dm_binder.c) ───────────────────────────────────────── -/

/-- dm_handle_show_page from dm_binder.c.  Returns the write_bytes calls
made (in order), the updated UI state and the updated event counter. -/
def dm_handle_show_page (seq : Nat) (p : List Nat) (len : Nat)
    (ui : ui_pages_state_t) (seqc : Nat) (plat : Option dm_platform_t) :
    List (List Nat) × ui_pages_state_t × Nat :=
  if len < 1 then (dm_packet_send_nack seq plat, ui, seqc)
  else
    let page_id := p.getD 0 0
    let shown := ui_pages_show page_id ui
    if shown.1 then
      let acks := dm_packet_send_ack seq plat none 0
      let ev := dm_packet_send_page_changed page_id seqc plat
      (acks ++ ev.1, shown.2, ev.2)
    else
      (dm_packet_send_nack seq plat, shown.2, seqc)

/- ── Device-originated event sequences (harness for dm_packet.c) ────────── -/

/-- One device-originated event, as emitted by the dm_packet.c wrappers. -/
inductive dm_event_t where
  | button (widget_idx : Nat)
  | slider (widget_idx : Nat) (value : Int)
  | page (page_id : Nat)
  | touch (x y : Int)
deriving DecidableEq, Repr

/-- Dispatch a single event to the corresponding dm_packet.c wrapper. -/
def dm_send_event (ev : dm_event_t) (seqc : Nat) (plat : Option dm_platform_t) :
    List (List Nat) × Nat :=
  match ev with
  | .button w => dm_packet_send_button_pressed w seqc plat
  | .slider w v => dm_packet_send_slider_changed w v seqc plat
  | .page pg => dm_packet_send_page_changed pg seqc plat
  | .touch x y => dm_packet_send_touch_event x y seqc plat

/-- Send a sequence of device-originated events, threading the global
event counter, and collect every write_bytes call in order. -/
def dm_send_events (evs : List dm_event_t) (seqc : Nat)
    (plat : Option dm_platform_t) : List (List Nat) × Nat :=
  match evs with
  | [] => ([], seqc)
  | ev :: rest =>
      let r := dm_send_event ev seqc plat
      let r2 := dm_send_events rest r.2 plat
      (r.1 ++ r2.1, r2.2)

/- ── Specification vocabulary ───────────────────────────────────────────── -/

/-- Successive in-place byte stores buf[i++] = b, as the parser performs
them while collecting a payload. -/
def write_at (buf : List Nat) (i : Nat) (bytes : List Nat) : List Nat :=
  match bytes with
  | [] => buf
  | b :: rest => write_at (buf.set i b) (i + 1) rest

/-- Flip bit t of the byte at position j of a serialized stream. -/
def flip_bit (s : List Nat) (j t : Nat) : List Nat :=
  s.set j ((s.getD j 0) ^^^ (1 <<< t))

/- ── Claim C5: CRC reference vectors ────────────────────────────────────── -/

/-- Claim C5: crc_of over the 9 ASCII bytes of the digit string one to
nine (0x31..0x39) equals 0x29B1, and crc_of over the empty byte sequence
equals the seed 0xFFFF. -/
theorem crc16_ccitt_reference_vectors :
    crc16_ccitt [0x31, 0x32, 0x33, 0x34, 0x35, 0x36, 0x37, 0x38, 0x39] = 0x29B1 ∧
    crc16_ccitt [] = 0xFFFF := by
  constructor
  · decide
  · rfl

/- ── Bit-level helper lemmas ────────────────────────────────────────────── -/

/-- Left shift distributes over XOR. -/
theorem xor_shiftLeft (a b k : Nat) : (a ^^^ b) <<< k = (a <<< k) ^^^ (b <<< k) := by
  apply Nat.eq_of_testBit_eq
  intro i
  rw [Nat.testBit_shiftLeft, Nat.testBit_xor, Nat.testBit_xor, Nat.testBit_shiftLeft,
    Nat.testBit_shiftLeft]
  by_cases h : k ≤ i <;> simp [h]

theorem xor_left_comm (a b c : Nat) : a ^^^ (b ^^^ c) = b ^^^ (a ^^^ c) := by
  rw [← Nat.xor_assoc, Nat.xor_comm a b, Nat.xor_assoc]

/-- The crc16 high-bit test, phrased through testBit. -/
theorem and_ne_zero_iff_testBit (c : Nat) : (c &&& 0x8000 ≠ 0) ↔ c.testBit 15 := by
  have h : (0x8000 : Nat) = 2 ^ 15 := by norm_num
  rw [h, Nat.and_two_pow]
  cases hb : c.testBit 15 <;> simp [hb]

/-- Recombining the big-endian CRC split: shifting the high byte back and
ORing in the low byte restores the original 16-bit value. -/
theorem crc_split_recombine (c : Nat) : ((c >>> 8) <<< 8) ||| (c &&& 255) = c := by
  apply Nat.eq_of_testBit_eq
  intro i
  have h255 : (255 : Nat) = 2 ^ 8 - 1 := by norm_num
  rw [h255, Nat.and_pow_two_sub_one_eq_mod]
  rw [Nat.testBit_lor, Nat.testBit_shiftLeft, Nat.testBit_mod_two_pow, Nat.testBit_shiftRight]
  by_cases h : i < 8
  · simp [h, Nat.not_le.mpr h]
  · have h8 : 8 ≤ i := Nat.not_lt.mp h
    simp [h, h8, Nat.add_sub_cancel' h8]

/-- A byte below 256 has no bits at positions 8 and above. -/
theorem testBit_eq_false_of_byte (cl i : Nat) (hcl : cl < 256) (hi : 8 ≤ i) :
    cl.testBit i = false := by
  rw [Nat.testBit_to_div_mod]
  have hdiv : cl / 2 ^ i = 0 := by
    apply Nat.div_eq_of_lt
    calc cl < 256 := hcl
      _ = 2 ^ 8 := by norm_num
      _ ≤ 2 ^ i := Nat.pow_le_pow_right (by norm_num) hi
  simp [hdiv]

/-- Extract the high half of the received CRC word the parser assembles. -/
theorem lor_high (x cl : Nat) (hcl : cl < 256) : ((x <<< 8) ||| cl) >>> 8 = x := by
  apply Nat.eq_of_testBit_eq
  intro i
  rw [Nat.testBit_shiftRight, Nat.testBit_lor, Nat.testBit_shiftLeft]
  rw [testBit_eq_false_of_byte cl (8 + i) hcl (by omega)]
  simp [Nat.add_sub_cancel_left]

/-- Extract the low half of the received CRC word the parser assembles. -/
theorem lor_low (x cl : Nat) (hcl : cl < 256) : ((x <<< 8) ||| cl) &&& 255 = cl := by
  have h255 : (255 : Nat) = 2 ^ 8 - 1 := by norm_num
  rw [h255, Nat.and_pow_two_sub_one_eq_mod]
  apply Nat.eq_of_testBit_eq
  intro i
  rw [Nat.testBit_mod_two_pow, Nat.testBit_lor, Nat.testBit_shiftLeft]
  by_cases h : i < 8
  · simp [h, Nat.not_le.mpr h]
  · rw [testBit_eq_false_of_byte cl i hcl (by omega)]
    simp [h]

/- ── CRC16 algebra ──────────────────────────────────────────────────────── -/

/-- Normal form of one shift/XOR round: an unconditional masked shift,
XORed with the polynomial exactly when bit 15 was set. -/
theorem crc16_round_norm (x : Nat) :
    crc16_round x = ((x <<< 1) &&& 0xFFFF) ^^^ (if x.testBit 15 then 0x1021 else 0) := by
  unfold crc16_round
  by_cases h : x.testBit 15
  · rw [if_pos ((and_ne_zero_iff_testBit x).mpr h), if_pos h, Nat.and_xor_distrib_right]
    norm_num
    decide
  · rw [if_neg (fun hc => h ((and_ne_zero_iff_testBit x).mp hc)), if_neg h]
    simp

/-- One crc16 round is GF(2)-linear. -/
theorem crc16_round_xor (a b : Nat) :
    crc16_round (a ^^^ b) = crc16_round a ^^^ crc16_round b := by
  rw [crc16_round_norm, crc16_round_norm, crc16_round_norm]
  rw [xor_shiftLeft, Nat.and_xor_distrib_right, Nat.testBit_xor]
  cases ha : a.testBit 15 <;> cases hb : b.testBit 15 <;>
    simp [Nat.xor_assoc, Nat.xor_comm, xor_left_comm, Nat.xor_cancel_left]

/-- Iterated rounds are GF(2)-linear. -/
theorem crc16_round_iterate_xor (k a b : Nat) :
    crc16_round^[k] (a ^^^ b) = crc16_round^[k] a ^^^ crc16_round^[k] b := by
  induction k generalizing a b with
  | zero => rfl
  | succ n ih =>
      rw [Function.iterate_succ_apply, Function.iterate_succ_apply,
        Function.iterate_succ_apply, crc16_round_xor, ih]

theorem crc16_round_lt (c : Nat) : crc16_round c < 65536 := by
  unfold crc16_round
  split <;> exact Nat.lt_succ_of_le Nat.and_le_right

theorem crc16_round_zero : crc16_round 0 = 0 := by decide

theorem crc16_round_iterate_zero (k : Nat) : crc16_round^[k] 0 = 0 := by
  induction k with
  | zero => rfl
  | succ n ih => rw [Function.iterate_succ_apply, crc16_round_zero, ih]

/-- A single round maps no nonzero 16-bit value to zero (the polynomial
has a nonzero constant term, so the shift map is invertible). -/
theorem crc16_round_eq_zero (x : Nat) (hx : x < 65536) (h : crc16_round x = 0) : x = 0 := by
  unfold crc16_round at h
  have hm : (0xFFFF : Nat) = 2 ^ 16 - 1 := by norm_num
  have hsl : x <<< 1 = 2 * x := by rw [Nat.shiftLeft_eq]; ring
  split at h
  · rw [Nat.and_xor_distrib_right, hm, Nat.and_pow_two_sub_one_eq_mod] at h
    rw [Nat.xor_eq_zero] at h
    have h1021 : (0x1021 : Nat) &&& (2 ^ 16 - 1) = 0x1021 := by decide
    rw [h1021, hsl] at h
    omega
  · rename_i hbit
    rw [hm, Nat.and_pow_two_sub_one_eq_mod, hsl] at h
    have hb : ¬ x.testBit 15 := fun hc => hbit ((and_ne_zero_iff_testBit x).mpr hc)
    rw [Nat.testBit_to_div_mod] at hb
    simp only [decide_eq_true_eq] at hb
    have h15 : (2 : Nat) ^ 15 = 32768 := by norm_num
    rw [h15] at hb
    omega

/-- Iterated rounds map no nonzero 16-bit value to zero. -/
theorem crc16_round_iterate_eq_zero (k x : Nat) (hx : x < 65536)
    (h : crc16_round^[k] x = 0) : x = 0 := by
  induction k generalizing x with
  | zero => exact h
  | succ n ih =>
      rw [Function.iterate_succ_apply] at h
      exact crc16_round_eq_zero x hx (ih (crc16_round x) (crc16_round_lt x) h)

theorem crc16_update_lt (c b : Nat) : crc16_update c b < 65536 := by
  unfold crc16_update
  rw [show (8 : Nat) = 7 + 1 from rfl, Function.iterate_succ_apply']
  exact crc16_round_lt _

/-- Running CRCs stay 16-bit. -/
theorem foldl_crc16_update_lt (l : List Nat) (c : Nat) (hc : c < 65536) :
    List.foldl crc16_update c l < 65536 := by
  induction l generalizing c with
  | nil => exact hc
  | cons b rest ih => exact ih (crc16_update c b) (crc16_update_lt c b)

theorem crc16_ccitt_lt (l : List Nat) : crc16_ccitt l < 65536 :=
  foldl_crc16_update_lt l 0xFFFF (by norm_num)

/-- Injecting an XOR difference into the accumulator commutes with one
update step, the difference being advanced by eight rounds. -/
theorem crc16_update_xor_acc (c d b : Nat) :
    crc16_update (c ^^^ d) b = crc16_update c b ^^^ crc16_round^[8] d := by
  unfold crc16_update
  rw [show c ^^^ d ^^^ (b <<< 8) = (c ^^^ (b <<< 8)) ^^^ d by
    rw [Nat.xor_assoc, Nat.xor_assoc, Nat.xor_comm d _]]
  exact crc16_round_iterate_xor 8 _ d

/-- Flipping bits of the processed byte advances the corresponding
difference through eight rounds as well. -/
theorem crc16_update_xor_byte (c b e : Nat) :
    crc16_update c (b ^^^ e) = crc16_update c b ^^^ crc16_round^[8] (e <<< 8) := by
  unfold crc16_update
  rw [xor_shiftLeft, ← Nat.xor_assoc]
  exact crc16_round_iterate_xor 8 _ _

/-- Folding further bytes over a perturbed accumulator: the perturbation
is advanced by eight rounds per byte and stays XOR-separable. -/
theorem foldl_crc16_update_xor (l : List Nat) (c d : Nat) :
    List.foldl crc16_update (c ^^^ d) l =
      List.foldl crc16_update c l ^^^ crc16_round^[8 * l.length] d := by
  induction l generalizing c d with
  | nil => simp
  | cons b rest ih =>
      rw [List.foldl_cons, List.foldl_cons, crc16_update_xor_acc, ih]
      rw [← Function.iterate_add_apply]
      have harith : 8 * rest.length + 8 = 8 * (b :: rest).length := by
        simp only [List.length_cons]
        ring
      rw [harith]

/- ── Parser run lemmas ────────────────────────────────────────────────────── -/

theorem dm_parser_feed_all_nil (p : dm_parser_t) : dm_parser_feed_all p [] = p := rfl

theorem dm_parser_feed_all_cons (p : dm_parser_t) (b : Nat) (rest : List Nat) :
    dm_parser_feed_all p (b :: rest) = dm_parser_feed_all (dm_parser_feed p b) rest := rfl

theorem feed_payload_run (body : List Nat) : ∀ (p : dm_parser_t),
    p.state = .PARSE_PAYLOAD →
    p.payload_index + body.length = p.frame.payload_len →
    1 ≤ body.length →
    dm_parser_feed_all p body =
      { p with
        state := .PARSE_CRC_HIGH
        payload_index := p.frame.payload_len
        running_crc := List.foldl crc16_update p.running_crc body
        frame := { p.frame with payload := write_at p.frame.payload p.payload_index body } } := by
  induction body with
  | nil =>
      intro p _ _ hpos
      simp at hpos
  | cons b rest ih =>
      intro p hstate hlen _
      simp only [List.length_cons] at hlen
      rw [dm_parser_feed_all_cons]
      by_cases hend : rest.length = 0
      · have hrest : rest = [] := List.length_eq_zero.mp hend
        subst hrest
        have hidx : p.payload_index + 1 = p.frame.payload_len := by
          simpa using hlen
        simp only [dm_parser_feed, hstate]
        rw [if_pos (by simp [hidx])]
        simp [dm_parser_feed_all_nil, write_at, hidx]
      · have hfeed : dm_parser_feed p b =
            { p with
              frame := { p.frame with payload := p.frame.payload.set p.payload_index b }
              payload_index := p.payload_index + 1
              running_crc := crc16_update p.running_crc b } := by
          simp only [dm_parser_feed, hstate]
          rw [if_neg (by simp only [not_le]; omega)]
        rw [hfeed]
        rw [ih _ (by simp [hstate]) (by simp only [List.length_cons]; omega) (by omega)]
        simp [write_at]

theorem dm_parser_feed_all_append (p : dm_parser_t) (xs ys : List Nat) :
    dm_parser_feed_all p (xs ++ ys) = dm_parser_feed_all (dm_parser_feed_all p xs) ys :=
  List.foldl_append ..

theorem parse_to_crc_low (p : dm_parser_t) (v c s l : Nat) (body : List Nat) (ch : Nat)
    (h0 : p.state = .PARSE_WAIT_START) (hl : l ≤ DM_MAX_PAYLOAD) (hlen : body.length = l) :
    dm_parser_feed_all p ([0xAA, v, c, s, l] ++ body ++ [ch]) =
      { p with
        state := .PARSE_CRC_LOW
        frame := { version := v, command := c, seq_id := s, payload_len := l,
                   payload := write_at p.frame.payload 0 body }
        payload_index := l
        running_crc := List.foldl crc16_update 0xFFFF ([v, c, s, l] ++ body)
        crc_high := ch } := by
  have e1 : dm_parser_feed p 0xAA =
      { p with
        state := .PARSE_VERSION
        payload_index := 0
        running_crc := 0xFFFF
        crc_high := 0 } := by
    simp [dm_parser_feed, h0, DM_START_BYTE, parser_reset]
  have e2 : dm_parser_feed
      { p with
        state := .PARSE_VERSION
        payload_index := 0
        running_crc := 0xFFFF
        crc_high := 0 } v =
      { p with
        state := .PARSE_COMMAND
        payload_index := 0
        running_crc := crc16_update 0xFFFF v
        crc_high := 0
        frame := { p.frame with version := v } } := by
    simp [dm_parser_feed]
  have e3 : dm_parser_feed
      { p with
        state := .PARSE_COMMAND
        payload_index := 0
        running_crc := crc16_update 0xFFFF v
        crc_high := 0
        frame := { p.frame with version := v } } c =
      { p with
        state := .PARSE_SEQ_ID
        payload_index := 0
        running_crc := crc16_update (crc16_update 0xFFFF v) c
        crc_high := 0
        frame := { p.frame with version := v, command := c } } := by
    simp [dm_parser_feed]
  have e4 : dm_parser_feed
      { p with
        state := .PARSE_SEQ_ID
        payload_index := 0
        running_crc := crc16_update (crc16_update 0xFFFF v) c
        crc_high := 0
        frame := { p.frame with version := v, command := c } } s =
      { p with
        state := .PARSE_LENGTH
        payload_index := 0
        running_crc := crc16_update (crc16_update (crc16_update 0xFFFF v) c) s
        crc_high := 0
        frame := { p.frame with version := v, command := c, seq_id := s } } := by
    simp [dm_parser_feed]
  rcases Nat.eq_zero_or_pos l with hzero | hpos
  · subst hzero
    have hbody : body = [] := List.eq_nil_of_length_eq_zero hlen
    subst hbody
    have e5 : dm_parser_feed
        { p with
          state := .PARSE_LENGTH
          payload_index := 0
          running_crc := crc16_update (crc16_update (crc16_update 0xFFFF v) c) s
          crc_high := 0
          frame := { p.frame with version := v, command := c, seq_id := s } } 0 =
        { p with
          state := .PARSE_CRC_HIGH
          payload_index := 0
          running_crc := crc16_update (crc16_update (crc16_update (crc16_update 0xFFFF v) c) s) 0
          crc_high := 0
          frame := { p.frame with version := v, command := c, seq_id := s, payload_len := 0 } } := by
      simp [dm_parser_feed, DM_MAX_PAYLOAD]
    have e6 : dm_parser_feed
        { p with
          state := .PARSE_CRC_HIGH
          payload_index := 0
          running_crc := crc16_update (crc16_update (crc16_update (crc16_update 0xFFFF v) c) s) 0
          crc_high := 0
          frame := { p.frame with version := v, command := c, seq_id := s, payload_len := 0 } } ch =
        { p with
          state := .PARSE_CRC_LOW
          payload_index := 0
          running_crc := crc16_update (crc16_update (crc16_update (crc16_update 0xFFFF v) c) s) 0
          crc_high := ch
          frame := { p.frame with version := v, command := c, seq_id := s, payload_len := 0 } } := by
      simp [dm_parser_feed]
    rw [show ([0xAA, v, c, s, 0] ++ [] ++ [ch] : List Nat) = [0xAA, v, c, s, 0, ch] by simp]
    simp only [dm_parser_feed_all_cons, dm_parser_feed_all_nil]
    rw [e1, e2, e3, e4, e5, e6]
    simp [write_at]
  · have hne : l ≠ 0 := by omega
    have e5 : dm_parser_feed
        { p with
          state := .PARSE_LENGTH
          payload_index := 0
          running_crc := crc16_update (crc16_update (crc16_update 0xFFFF v) c) s
          crc_high := 0
          frame := { p.frame with version := v, command := c, seq_id := s } } l =
        { p with
          state := .PARSE_PAYLOAD
          payload_index := 0
          running_crc := crc16_update (crc16_update (crc16_update (crc16_update 0xFFFF v) c) s) l
          crc_high := 0
          frame := { p.frame with version := v, command := c, seq_id := s, payload_len := l } } := by
      simp only [dm_parser_feed]
      rw [if_neg (by simp only [not_lt, DM_MAX_PAYLOAD] at hl ⊢; omega), if_neg hne]
    have e6 : dm_parser_feed_all
        { p with
          state := .PARSE_PAYLOAD
          payload_index := 0
          running_crc := crc16_update (crc16_update (crc16_update (crc16_update 0xFFFF v) c) s) l
          crc_high := 0
          frame := { p.frame with version := v, command := c, seq_id := s, payload_len := l } }
        body =
        { p with
          state := .PARSE_CRC_HIGH
          payload_index := l
          running_crc := List.foldl crc16_update
            (crc16_update (crc16_update (crc16_update (crc16_update 0xFFFF v) c) s) l) body
          crc_high := 0
          frame := { p.frame with version := v, command := c, seq_id := s, payload_len := l, payload := write_at p.frame.payload 0 body } } := by
      rw [feed_payload_run body _ (by simp) (by simp [hlen]) (by omega)]
    have e7 : dm_parser_feed
        { p with
          state := .PARSE_CRC_HIGH
          payload_index := l
          running_crc := List.foldl crc16_update
            (crc16_update (crc16_update (crc16_update (crc16_update 0xFFFF v) c) s) l) body
          crc_high := 0
          frame := { p.frame with version := v, command := c, seq_id := s, payload_len := l, payload := write_at p.frame.payload 0 body } } ch =
        { p with
          state := .PARSE_CRC_LOW
          payload_index := l
          running_crc := List.foldl crc16_update
            (crc16_update (crc16_update (crc16_update (crc16_update 0xFFFF v) c) s) l) body
          crc_high := ch
          frame := { p.frame with version := v, command := c, seq_id := s, payload_len := l, payload := write_at p.frame.payload 0 body } } := by
      simp [dm_parser_feed]
    have lsplit : ([0xAA, v, c, s, l] ++ body ++ [ch] : List Nat)
        = 0xAA :: v :: c :: s :: l :: (body ++ [ch]) := by simp
    rw [lsplit]
    simp only [dm_parser_feed_all_cons]
    rw [e1, e2, e3, e4, e5]
    rw [dm_parser_feed_all_append]
    rw [e6]
    simp only [dm_parser_feed_all_cons, dm_parser_feed_all_nil]
    rw [e7]
    simp [List.foldl_append]

theorem parse_frame_ok (p : dm_parser_t) (v c s l ch cl : Nat) (body : List Nat)
    (h0 : p.state = .PARSE_WAIT_START) (hl : l ≤ DM_MAX_PAYLOAD) (hlen : body.length = l)
    (hcrc : (ch <<< 8) ||| cl = List.foldl crc16_update 0xFFFF ([v, c, s, l] ++ body)) :
    dm_parser_feed_all p ([0xAA, v, c, s, l] ++ body ++ [ch, cl]) =
      { p with
        state := .PARSE_WAIT_START
        payload_index := 0
        running_crc := 0xFFFF
        crc_high := 0
        frame := { version := v, command := c, seq_id := s, payload_len := l, payload := write_at p.frame.payload 0 body }
        frames_ok := p.frames_ok + 1
        dispatched := p.dispatched ++ [{ version := v, command := c, seq_id := s, payload_len := l, payload := write_at p.frame.payload 0 body }] } := by
  have hsplit : ([0xAA, v, c, s, l] ++ body ++ [ch, cl] : List Nat)
      = ([0xAA, v, c, s, l] ++ body ++ [ch]) ++ [cl] := by simp
  rw [hsplit, dm_parser_feed_all_append, parse_to_crc_low p v c s l body ch h0 hl hlen]
  simp only [dm_parser_feed_all_cons, dm_parser_feed_all_nil]
  simp only [dm_parser_feed]
  rw [if_pos hcrc]
  simp [parser_reset]

theorem parse_frame_err (p : dm_parser_t) (v c s l ch cl : Nat) (body : List Nat)
    (h0 : p.state = .PARSE_WAIT_START) (hl : l ≤ DM_MAX_PAYLOAD) (hlen : body.length = l)
    (hcrc : (ch <<< 8) ||| cl ≠ List.foldl crc16_update 0xFFFF ([v, c, s, l] ++ body)) :
    dm_parser_feed_all p ([0xAA, v, c, s, l] ++ body ++ [ch, cl]) =
      { p with
        state := .PARSE_WAIT_START
        payload_index := 0
        running_crc := 0xFFFF
        crc_high := 0
        frame := { version := v, command := c, seq_id := s, payload_len := l, payload := write_at p.frame.payload 0 body }
        frames_crc_err := p.frames_crc_err + 1 } := by
  have hsplit : ([0xAA, v, c, s, l] ++ body ++ [ch, cl] : List Nat)
      = ([0xAA, v, c, s, l] ++ body ++ [ch]) ++ [cl] := by simp
  rw [hsplit, dm_parser_feed_all_append, parse_to_crc_low p v c s l body ch h0 hl hlen]
  simp only [dm_parser_feed_all_cons, dm_parser_feed_all_nil]
  simp only [dm_parser_feed]
  rw [if_neg hcrc]
  simp [parser_reset]

/- ── List write helpers ─────────────────────────────────────────────────── -/

theorem set_take_succ (buf : List Nat) (i b : Nat) (h : i < buf.length) :
    (buf.set i b).take (i + 1) = buf.take i ++ [b] := by
  rw [List.set_eq_take_cons_drop b h]
  have hl : (buf.take i).length = i := List.length_take_of_le (Nat.le_of_lt h)
  rw [show i + 1 = (buf.take i).length + 1 by rw [hl]]
  rw [List.take_append 1]
  simp

theorem write_at_take (bs : List Nat) : ∀ (buf : List Nat) (i : Nat),
    i + bs.length ≤ buf.length →
    (write_at buf i bs).take (i + bs.length) = buf.take i ++ bs := by
  induction bs with
  | nil =>
      intro buf i h
      simp [write_at]
  | cons b rest ih =>
      intro buf i h
      simp only [List.length_cons] at h
      have h1 : i < buf.length := by omega
      simp only [write_at]
      have hidx : i + (b :: rest).length = (i + 1) + rest.length := by
        simp only [List.length_cons]
        omega
      rw [hidx, ih (buf.set i b) (i + 1) (by rw [List.length_set]; omega)]
      rw [set_take_succ buf i b h1, List.append_assoc, List.singleton_append]

/- ── Claim C1 ───────────────────────────────────────────────────────────── -/

/-- Claim C1, counterexample: feed two 0xAA bytes to a fresh parser.  The
second 0xAA arrives in the VERSION state; the claim says the parser should
return to VERSION with a reset CRC and payload index, but the code consumes
it as the version byte and advances to COMMAND with the CRC updated. -/
theorem start_byte_mid_frame_not_resync :
    (dm_parser_feed_all dm_parser_init [0xAA, 0xAA]).state = .PARSE_COMMAND ∧
    (dm_parser_feed_all dm_parser_init [0xAA, 0xAA]).state ≠ .PARSE_VERSION ∧
    (dm_parser_feed_all dm_parser_init [0xAA, 0xAA]).running_crc ≠ 0xFFFF ∧
    (dm_parser_feed_all dm_parser_init [0xAA, 0xAA]).frame.version = 0xAA := by
  refine ⟨by decide, by decide, by decide, by decide⟩

/-- Claim C1 (amended): the start byte 0xAA is a resync trigger only in
the WAIT_START state, where it moves the parser to VERSION with the
running CRC reset to 0xFFFF and the payload index reset to 0.  In every
post-start state the byte 0xAA is consumed by the state's ordinary
transition rule and never restarts header accumulation: the resulting
state is never VERSION (in particular, in the LENGTH state 0xAA exceeds
DM_MAX_PAYLOAD and causes a length-error resync to WAIT_START). -/
theorem start_byte_resync_only_in_wait_start (p : dm_parser_t) :
    (p.state = .PARSE_WAIT_START →
      dm_parser_feed p 0xAA = { parser_reset p with state := .PARSE_VERSION }) ∧
    (p.state ≠ .PARSE_WAIT_START → (dm_parser_feed p 0xAA).state ≠ .PARSE_VERSION) := by
  constructor
  · intro h
    simp [dm_parser_feed, h, DM_START_BYTE]
  · intro h
    cases hs : p.state
    case PARSE_WAIT_START => exact absurd hs h
    case PARSE_VERSION => simp [dm_parser_feed, hs]
    case PARSE_COMMAND => simp [dm_parser_feed, hs]
    case PARSE_SEQ_ID => simp [dm_parser_feed, hs]
    case PARSE_LENGTH =>
      simp only [dm_parser_feed, hs]
      rw [if_pos (by norm_num [DM_MAX_PAYLOAD])]
      simp [parser_reset]
    case PARSE_PAYLOAD =>
      simp only [dm_parser_feed, hs]
      split <;> simp
    case PARSE_CRC_HIGH => simp [dm_parser_feed, hs]
    case PARSE_CRC_LOW =>
      simp only [dm_parser_feed, hs]
      split <;> simp [parser_reset]

/-- Witness for the amended C1 theorem at concrete parsers: a fresh parser
(in WAIT_START) resyncs on 0xAA, and a parser that has already consumed a
start byte (in VERSION) does not return to VERSION on a second 0xAA. -/
theorem start_byte_resync_only_in_wait_start_witness :
    dm_parser_feed dm_parser_init 0xAA
      = { parser_reset dm_parser_init with state := .PARSE_VERSION } ∧
    (dm_parser_feed (dm_parser_feed dm_parser_init 0xAA) 0xAA).state ≠ .PARSE_VERSION :=
  ⟨(start_byte_resync_only_in_wait_start dm_parser_init).1 (by decide),
   (start_byte_resync_only_in_wait_start (dm_parser_feed dm_parser_init 0xAA)).2 (by decide)⟩

/- ── Claim C4 ───────────────────────────────────────────────────────────── -/

/-- The parser-buffer safety invariant is preserved by a single feed of an
arbitrary byte. -/
theorem parser_inv_step (p : dm_parser_t) (b : Nat)
    (hpay : p.state = .PARSE_PAYLOAD →
      p.payload_index < p.frame.payload_len ∧ p.frame.payload_len ≤ DM_MAX_PAYLOAD)
    (hbuf : p.frame.payload.length = DM_MAX_PAYLOAD) :
    ((dm_parser_feed p b).state = .PARSE_PAYLOAD →
      (dm_parser_feed p b).payload_index < (dm_parser_feed p b).frame.payload_len ∧
      (dm_parser_feed p b).frame.payload_len ≤ DM_MAX_PAYLOAD) ∧
    (dm_parser_feed p b).frame.payload.length = DM_MAX_PAYLOAD := by
  cases hs : p.state
  case PARSE_WAIT_START =>
    simp only [dm_parser_feed, hs]
    split
    · exact ⟨by simp, by simpa [parser_reset] using hbuf⟩
    · exact ⟨fun hc => hpay (hs ▸ hc), hbuf⟩
  case PARSE_VERSION => exact ⟨by simp [dm_parser_feed, hs], by simp [dm_parser_feed, hs, hbuf]⟩
  case PARSE_COMMAND => exact ⟨by simp [dm_parser_feed, hs], by simp [dm_parser_feed, hs, hbuf]⟩
  case PARSE_SEQ_ID => exact ⟨by simp [dm_parser_feed, hs], by simp [dm_parser_feed, hs, hbuf]⟩
  case PARSE_LENGTH =>
    simp only [dm_parser_feed, hs]
    split
    · exact ⟨by simp [parser_reset], by simpa [parser_reset] using hbuf⟩
    · rename_i hble
      split
      · exact ⟨by simp, by simpa using hbuf⟩
      · rename_i hbz
        refine ⟨fun _ => ⟨by simpa using Nat.pos_of_ne_zero hbz, by simpa using Nat.le_of_not_lt hble⟩,
          by simpa using hbuf⟩
  case PARSE_PAYLOAD =>
    obtain ⟨hidx, hmax⟩ := hpay hs
    simp only [dm_parser_feed, hs]
    split
    · exact ⟨by simp, by simp [List.length_set, hbuf]⟩
    · rename_i hlt
      refine ⟨fun _ => ⟨by simpa using Nat.lt_of_not_le (by simpa using hlt), by simpa using hmax⟩,
        by simp [List.length_set, hbuf]⟩
  case PARSE_CRC_HIGH => exact ⟨by simp [dm_parser_feed, hs], by simp [dm_parser_feed, hs, hbuf]⟩
  case PARSE_CRC_LOW =>
    simp only [dm_parser_feed, hs]
    split
    · exact ⟨by simp [parser_reset], by simpa [parser_reset] using hbuf⟩
    · exact ⟨by simp [parser_reset], by simpa [parser_reset] using hbuf⟩

/-- The parser-buffer safety invariant is preserved by any byte stream. -/
theorem parser_inv_run (bytes : List Nat) : ∀ (p : dm_parser_t),
    (p.state = .PARSE_PAYLOAD →
      p.payload_index < p.frame.payload_len ∧ p.frame.payload_len ≤ DM_MAX_PAYLOAD) →
    p.frame.payload.length = DM_MAX_PAYLOAD →
    ((dm_parser_feed_all p bytes).state = .PARSE_PAYLOAD →
      (dm_parser_feed_all p bytes).payload_index < (dm_parser_feed_all p bytes).frame.payload_len ∧
      (dm_parser_feed_all p bytes).frame.payload_len ≤ DM_MAX_PAYLOAD) ∧
    (dm_parser_feed_all p bytes).frame.payload.length = DM_MAX_PAYLOAD := by
  induction bytes with
  | nil => exact fun p hpay hbuf => ⟨hpay, hbuf⟩
  | cons b rest ih =>
      intro p hpay hbuf
      rw [dm_parser_feed_all_cons]
      obtain ⟨h1, h2⟩ := parser_inv_step p b hpay hbuf
      exact ih (dm_parser_feed p b) h1 h2

/-- Claim C4: for every input byte stream fed to a freshly initialised
parser, whenever the parser sits in the PAYLOAD state its write cursor is
strictly below the payload length, which never exceeds DM_MAX_PAYLOAD, so
every payload-buffer store lands at an index below DM_MAX_PAYLOAD; the
buffer itself always keeps exactly DM_MAX_PAYLOAD cells. -/
theorem parser_never_overruns_payload_buffer (stream : List Nat) :
    ((dm_parser_feed_all dm_parser_init stream).state = .PARSE_PAYLOAD →
      (dm_parser_feed_all dm_parser_init stream).payload_index
          < (dm_parser_feed_all dm_parser_init stream).frame.payload_len ∧
      (dm_parser_feed_all dm_parser_init stream).frame.payload_len ≤ DM_MAX_PAYLOAD) ∧
    (dm_parser_feed_all dm_parser_init stream).frame.payload.length = DM_MAX_PAYLOAD :=
  parser_inv_run stream dm_parser_init (by decide) (by decide)

/-- Witness for C4: a concrete stream that leaves the parser mid-payload,
where the bounds are discharged. -/
theorem parser_never_overruns_payload_buffer_witness :
    (dm_parser_feed_all dm_parser_init [0xAA, 1, 1, 0, 5, 9]).payload_index
        < (dm_parser_feed_all dm_parser_init [0xAA, 1, 1, 0, 5, 9]).frame.payload_len ∧
    (dm_parser_feed_all dm_parser_init [0xAA, 1, 1, 0, 5, 9]).frame.payload_len ≤ DM_MAX_PAYLOAD :=
  (parser_never_overruns_payload_buffer [0xAA, 1, 1, 0, 5, 9]).1 (by decide)

/- ── Encoder/parser composition ─────────────────────────────────────────── -/

/-- Closed form of the encoder buffer for a non-NULL payload whose length
argument is the payload's true length (the common call pattern). -/
theorem dm_packet_build_eq (cmd seqid : Nat) (payload : List Nat)
    (hlen : payload.length ≤ DM_MAX_PAYLOAD) :
    dm_packet_build cmd seqid (some payload) payload.length =
      [0xAA, DM_PROTOCOL_VERSION, cmd, seqid, payload.length] ++ payload ++
        [crc16_ccitt ([DM_PROTOCOL_VERSION, cmd, seqid, payload.length] ++ payload) >>> 8,
         crc16_ccitt ([DM_PROTOCOL_VERSION, cmd, seqid, payload.length] ++ payload) &&& 0xFF] := by
  have hmin : min payload.length DM_MAX_PAYLOAD = payload.length := Nat.min_eq_left hlen
  simp [dm_packet_build, hmin, List.take_length, DM_START_BYTE]

/-- Feeding an encoder-produced frame to a parser waiting for a start byte
validates the CRC and dispatches exactly one frame carrying the encoded
fields. -/
theorem parse_encoded_ok (p : dm_parser_t) (cmd seqid : Nat) (payload : List Nat)
    (h0 : p.state = .PARSE_WAIT_START) (hlen : payload.length ≤ DM_MAX_PAYLOAD) :
    dm_parser_feed_all p (dm_packet_build cmd seqid (some payload) payload.length) =
      { p with
        state := .PARSE_WAIT_START
        payload_index := 0
        running_crc := 0xFFFF
        crc_high := 0
        frame := { version := DM_PROTOCOL_VERSION, command := cmd, seq_id := seqid, payload_len := payload.length, payload := write_at p.frame.payload 0 payload }
        frames_ok := p.frames_ok + 1
        dispatched := p.dispatched ++ [{ version := DM_PROTOCOL_VERSION, command := cmd, seq_id := seqid, payload_len := payload.length, payload := write_at p.frame.payload 0 payload }] } := by
  rw [dm_packet_build_eq cmd seqid payload hlen]
  exact parse_frame_ok p DM_PROTOCOL_VERSION cmd seqid payload.length _ _ payload h0 hlen rfl
    (by rw [show (255 : Nat) = 0xFF from rfl]; exact crc_split_recombine _)

/- ── Claim C3 ───────────────────────────────────────────────────────────── -/

/-- Claim C3: for every cmd, seq and payload with at most DM_MAX_PAYLOAD
bytes, feeding the encoder output byte-by-byte into a freshly initialised
parser delivers exactly one frame to the dispatcher, whose version,
command, seq_id, payload_len and payload bytes equal the encoded ones. -/
theorem framing_round_trip (cmd seqid : Nat) (payload : List Nat)
    (hlen : payload.length ≤ DM_MAX_PAYLOAD) :
    (dm_parser_feed_all dm_parser_init
        (dm_packet_build cmd seqid (some payload) payload.length)).frames_ok = 1 ∧
    (dm_parser_feed_all dm_parser_init
        (dm_packet_build cmd seqid (some payload) payload.length)).dispatched.map
          (fun f => (f.version, f.command, f.seq_id, f.payload_len, f.payload.take f.payload_len))
      = [(DM_PROTOCOL_VERSION, cmd, seqid, payload.length, payload)] ∧
    (dm_parser_feed_all dm_parser_init
        (dm_packet_build cmd seqid (some payload) payload.length)).state
      = .PARSE_WAIT_START := by
  rw [parse_encoded_ok dm_parser_init cmd seqid payload (by decide) hlen]
  have htake : (write_at dm_parser_init.frame.payload 0 payload).take payload.length = payload := by
    have h := write_at_take payload dm_parser_init.frame.payload 0
      (by simpa [dm_parser_init, parser_reset] using hlen)
    simpa using h
  refine ⟨by simp [dm_parser_init, parser_reset], ?_, rfl⟩
  simp [dm_parser_init, parser_reset, htake]
  simpa [dm_parser_init, parser_reset] using htake

/-- Witness for C3 at a concrete command, sequence id and payload. -/
theorem framing_round_trip_witness :
    (dm_parser_feed_all dm_parser_init
        (dm_packet_build 0x20 0x0A (some [1, 2, 3]) 3)).frames_ok = 1 :=
  (framing_round_trip 0x20 0x0A [1, 2, 3] (by decide)).1

/- ── Claim C6 ───────────────────────────────────────────────────────────── -/

/-- Claim C6: a LEN byte exceeding DM_MAX_PAYLOAD in the LENGTH state
bumps frames_len_err by exactly one, dispatches nothing, and returns the
parser to WAIT_START; an encoder-produced valid frame fed immediately
afterwards still parses and is dispatched (frames_ok is incremented and
the length-error count stays put). -/
theorem length_overflow_resync (p : dm_parser_t) (b cmd seqid : Nat) (payload : List Nat)
    (hstate : p.state = .PARSE_LENGTH) (hb : DM_MAX_PAYLOAD < b)
    (hlen : payload.length ≤ DM_MAX_PAYLOAD) :
    (dm_parser_feed p b).frames_len_err = p.frames_len_err + 1 ∧
    (dm_parser_feed p b).frames_ok = p.frames_ok ∧
    (dm_parser_feed p b).dispatched = p.dispatched ∧
    (dm_parser_feed p b).state = .PARSE_WAIT_START ∧
    (dm_parser_feed_all (dm_parser_feed p b)
        (dm_packet_build cmd seqid (some payload) payload.length)).frames_ok
      = p.frames_ok + 1 ∧
    (dm_parser_feed_all (dm_parser_feed p b)
        (dm_packet_build cmd seqid (some payload) payload.length)).dispatched.length
      = p.dispatched.length + 1 ∧
    (dm_parser_feed_all (dm_parser_feed p b)
        (dm_packet_build cmd seqid (some payload) payload.length)).frames_len_err
      = p.frames_len_err + 1 := by
  have hfeed : dm_parser_feed p b = parser_reset { p with frames_len_err := p.frames_len_err + 1 } := by
    simp only [dm_parser_feed, hstate]
    rw [if_pos hb]
  rw [hfeed]
  rw [parse_encoded_ok (parser_reset { p with frames_len_err := p.frames_len_err + 1 })
    cmd seqid payload (by simp [parser_reset]) hlen]
  refine ⟨by simp [parser_reset], by simp [parser_reset], by simp [parser_reset],
    by simp [parser_reset], by simp [parser_reset], by simp [parser_reset],
    by simp [parser_reset]⟩

/-- Witness for C6: a parser that has consumed a start byte and header
reaches LENGTH; feeding 0xFF there then a valid PING frame. -/
theorem length_overflow_resync_witness :
    (dm_parser_feed (dm_parser_feed_all dm_parser_init [0xAA, 1, 1, 0x7B]) 0xFF).frames_len_err
      = (dm_parser_feed_all dm_parser_init [0xAA, 1, 1, 0x7B]).frames_len_err + 1 ∧
    (dm_parser_feed_all (dm_parser_feed (dm_parser_feed_all dm_parser_init [0xAA, 1, 1, 0x7B]) 0xFF)
        (dm_packet_build 1 0x7B (some []) 0)).frames_ok
      = (dm_parser_feed_all dm_parser_init [0xAA, 1, 1, 0x7B]).frames_ok + 1 := by
  have h := length_overflow_resync (dm_parser_feed_all dm_parser_init [0xAA, 1, 1, 0x7B])
    0xFF 1 0x7B [] (by decide) (by decide) (by decide)
  exact ⟨h.1, h.2.2.2.2.1⟩

/- ── Claim C9 ───────────────────────────────────────────────────────────── -/

/-- Big-endian reassembly of the two CRC bytes the encoder emits. -/
theorem crc_bytes_big_endian (c : Nat) : 256 * (c >>> 8) + (c &&& 0xFF) = c := by
  rw [Nat.shiftRight_eq_div_pow, show (0xFF : Nat) = 2 ^ 8 - 1 by norm_num,
    Nat.and_pow_two_sub_one_eq_mod]
  omega

/-- Claim C9: with a usable platform, the encoder first silently clamps
the payload length to DM_MAX_PAYLOAD, emits exactly the byte sequence
0xAA, version, cmd, seq, len, payload bytes, then the CRC16-CCITT of
version-cmd-seq-len-payload split big endian (high byte first), and calls
write_bytes exactly once with that whole buffer.  The hypothesis that the
payload holds at least payload_len bytes mirrors the memcpy precondition
of the C call; the model's take is total, so the equality itself does not
depend on it. -/
theorem dm_packet_send_wire_format (cmd seqid payload_len : Nat) (payload : List Nat)
    (pl : dm_platform_t) (hw : pl.write_bytes = true) (_hp : payload_len ≤ payload.length) :
    dm_packet_send cmd seqid (some payload) payload_len (some pl) =
      [[DM_START_BYTE, DM_PROTOCOL_VERSION, cmd, seqid, min payload_len DM_MAX_PAYLOAD] ++
        payload.take (min payload_len DM_MAX_PAYLOAD) ++
        [crc16_ccitt ([DM_PROTOCOL_VERSION, cmd, seqid, min payload_len DM_MAX_PAYLOAD] ++
            payload.take (min payload_len DM_MAX_PAYLOAD)) >>> 8,
         crc16_ccitt ([DM_PROTOCOL_VERSION, cmd, seqid, min payload_len DM_MAX_PAYLOAD] ++
            payload.take (min payload_len DM_MAX_PAYLOAD)) &&& 0xFF]] ∧
    min payload_len DM_MAX_PAYLOAD ≤ DM_MAX_PAYLOAD ∧
    256 * (crc16_ccitt ([DM_PROTOCOL_VERSION, cmd, seqid, min payload_len DM_MAX_PAYLOAD] ++
        payload.take (min payload_len DM_MAX_PAYLOAD)) >>> 8) +
      (crc16_ccitt ([DM_PROTOCOL_VERSION, cmd, seqid, min payload_len DM_MAX_PAYLOAD] ++
        payload.take (min payload_len DM_MAX_PAYLOAD)) &&& 0xFF) =
      crc16_ccitt ([DM_PROTOCOL_VERSION, cmd, seqid, min payload_len DM_MAX_PAYLOAD] ++
        payload.take (min payload_len DM_MAX_PAYLOAD)) := by
  refine ⟨?_, Nat.min_le_right _ _, crc_bytes_big_endian _⟩
  simp [dm_packet_send, hw, dm_packet_build, DM_START_BYTE]

/-- Witness for C9 at a concrete call. -/
theorem dm_packet_send_wire_format_witness :
    dm_packet_send 1 0x7B (some [5]) 1 (some { write_bytes := true, log := true }) =
      [[0xAA, 1, 1, 0x7B, 1, 5] ++
        [crc16_ccitt [1, 1, 0x7B, 1, 5] >>> 8, crc16_ccitt [1, 1, 0x7B, 1, 5] &&& 0xFF]] := by
  have h := (dm_packet_send_wire_format 1 0x7B 1 [5]
    { write_bytes := true, log := true } rfl (by decide)).1
  simpa using h

/- ── Claim C10 ──────────────────────────────────────────────────────────── -/

/-- Claim C10: a NULL platform pointer, or a platform whose write_bytes
slot is NULL, makes the encoder send a safe no-op: no write_bytes call is
made.  The function touches no global state in either case (the event
counter is only advanced by the wrappers, outside this function). -/
theorem dm_packet_send_null_platform_noop (cmd seqid payload_len : Nat)
    (payload : Option (List Nat)) (pl : dm_platform_t) (hw : pl.write_bytes = false) :
    dm_packet_send cmd seqid payload payload_len none = [] ∧
    dm_packet_send cmd seqid payload payload_len (some pl) = [] :=
  ⟨rfl, by simp [dm_packet_send, hw]⟩

/-- Witness for C10 at a concrete call. -/
theorem dm_packet_send_null_platform_noop_witness :
    dm_packet_send 1 2 (some [3]) 1 none = [] ∧
    dm_packet_send 1 2 (some [3]) 1 (some { write_bytes := false, log := true }) = [] :=
  dm_packet_send_null_platform_noop 1 2 1 (some [3]) { write_bytes := false, log := true } rfl

/- ── Claim C7 ───────────────────────────────────────────────────────────── -/

/-- Claim C7: when the binder handles SHOW_PAGE successfully (payload
length at least 1 and the page-show operation succeeds), it performs
exactly two write_bytes calls: first the complete EVT_ACK frame echoing
the request seq_id, then the complete EVT_PAGE_CHANGED frame, so in the
transmitted byte stream every ACK byte precedes every event byte. -/
theorem show_page_ack_before_page_changed (seqid : Nat) (pbytes : List Nat) (len : Nat)
    (ui : ui_pages_state_t) (seqc : Nat) (pl : dm_platform_t)
    (hlen : 1 ≤ len) (hpage : pbytes.getD 0 0 < ui.page_count) (hw : pl.write_bytes = true) :
    (dm_handle_show_page seqid pbytes len ui seqc (some pl)).1 =
      [dm_packet_build EVT_ACK seqid none 0,
       dm_packet_build EVT_PAGE_CHANGED seqc (some [pbytes.getD 0 0]) 1] ∧
    (dm_handle_show_page seqid pbytes len ui seqc (some pl)).1.flatten =
      dm_packet_build EVT_ACK seqid none 0 ++
        dm_packet_build EVT_PAGE_CHANGED seqc (some [pbytes.getD 0 0]) 1 ∧
    (dm_packet_build EVT_ACK seqid none 0).getD 2 0 = EVT_ACK ∧
    (dm_packet_build EVT_ACK seqid none 0).getD 3 0 = seqid ∧
    (dm_packet_build EVT_PAGE_CHANGED seqc (some [pbytes.getD 0 0]) 1).getD 2 0
      = EVT_PAGE_CHANGED ∧
    (dm_handle_show_page seqid pbytes len ui seqc (some pl)).2.1
      = { ui with current_page := pbytes.getD 0 0 } ∧
    (dm_handle_show_page seqid pbytes len ui seqc (some pl)).2.2 = (seqc + 1) % 256 := by
  have hshow : ui_pages_show (pbytes.getD 0 0) ui
      = (true, { ui with current_page := pbytes.getD 0 0 }) := by
    unfold ui_pages_show
    rw [if_neg (Nat.not_le.mpr hpage)]
  have hmain : dm_handle_show_page seqid pbytes len ui seqc (some pl) =
      ([dm_packet_build EVT_ACK seqid none 0,
        dm_packet_build EVT_PAGE_CHANGED seqc (some [pbytes.getD 0 0]) 1],
       { ui with current_page := pbytes.getD 0 0 }, (seqc + 1) % 256) := by
    unfold dm_handle_show_page
    rw [if_neg (by omega)]
    simp only [hshow]
    simp [dm_packet_send_ack, dm_packet_send_page_changed, dm_packet_send, hw]
  refine ⟨by rw [hmain], by rw [hmain]; simp, ?_, ?_, ?_, by rw [hmain], by rw [hmain]⟩
  · simp [dm_packet_build, DM_START_BYTE, EVT_ACK]
  · simp [dm_packet_build, DM_START_BYTE]
  · simp [dm_packet_build, DM_START_BYTE, EVT_PAGE_CHANGED]

/-- Witness for C7 at a concrete request and UI state. -/
theorem show_page_ack_before_page_changed_witness :
    (dm_handle_show_page 0x42 [0] 1 { page_count := 2, current_page := 0xFF } 7
        (some { write_bytes := true, log := true })).1 =
      [dm_packet_build EVT_ACK 0x42 none 0,
       dm_packet_build EVT_PAGE_CHANGED 7 (some [0]) 1] :=
  (show_page_ack_before_page_changed 0x42 [0] 1 { page_count := 2, current_page := 0xFF } 7
    { write_bytes := true, log := true } (by decide) (by decide) rfl).1

/- ── Claim C8 ───────────────────────────────────────────────────────────── -/

/-- A single device-originated event send with a usable platform: exactly
one frame is written, its seq byte (offset 3) is the current counter, and
the counter advances by one modulo 256. -/
theorem dm_send_event_step (ev : dm_event_t) (s : Nat) (pl : dm_platform_t)
    (hw : pl.write_bytes = true) :
    ∃ f, (dm_send_event ev s (some pl)).1 = [f] ∧ f.getD 3 0 = s ∧
      (dm_send_event ev s (some pl)).2 = (s + 1) % 256 := by
  cases ev with
  | button w =>
      refine ⟨dm_packet_build EVT_BUTTON_PRESSED s (some [w]) 1, ?_, ?_, rfl⟩
      · simp [dm_send_event, dm_packet_send_button_pressed, dm_packet_send, hw]
      · simp [dm_packet_build, DM_START_BYTE]
  | slider w v =>
      refine ⟨dm_packet_build EVT_SLIDER_CHANGED s (some (w :: int16_bytes v)) 3, ?_, ?_, rfl⟩
      · simp [dm_send_event, dm_packet_send_slider_changed, dm_packet_send, hw]
      · simp [dm_packet_build, DM_START_BYTE]
  | page pg =>
      refine ⟨dm_packet_build EVT_PAGE_CHANGED s (some [pg]) 1, ?_, ?_, rfl⟩
      · simp [dm_send_event, dm_packet_send_page_changed, dm_packet_send, hw]
      · simp [dm_packet_build, DM_START_BYTE]
  | touch x y =>
      refine ⟨dm_packet_build EVT_TOUCH_EVENT s (some (int16_bytes x ++ int16_bytes y)) 4, ?_, ?_, rfl⟩
      · simp [dm_send_event, dm_packet_send_touch_event, dm_packet_send, hw]
      · simp [dm_packet_build, DM_START_BYTE]

/-- Claim C8: over any sequence of N device-originated event sends with a
usable platform, starting from counter value s < 256, exactly N frames
are emitted, the i-th frame's seq_id byte is (s + i) mod 256 (so the
seq_ids form the consecutive run s, s+1, ..., s+N-1 modulo 256), and the
process-wide 8-bit counter ends at (s + N) mod 256, i.e. each send
increments it by exactly one modulo 256. -/
theorem event_seq_consecutive (evs : List dm_event_t) : ∀ (s : Nat) (pl : dm_platform_t),
    s < 256 → pl.write_bytes = true →
    (dm_send_events evs s (some pl)).2 = (s + evs.length) % 256 ∧
    (dm_send_events evs s (some pl)).1.length = evs.length ∧
    ∀ i, i < evs.length →
      ((dm_send_events evs s (some pl)).1.getD i []).getD 3 0 = (s + i) % 256 := by
  induction evs with
  | nil =>
      intro s pl hs _
      refine ⟨by simp [dm_send_events, Nat.mod_eq_of_lt hs], by simp [dm_send_events], ?_⟩
      intro i hi
      exact absurd hi (by simp)
  | cons ev rest ih =>
      intro s pl hs hw
      obtain ⟨f, hf1, hf3, hf2⟩ := dm_send_event_step ev s pl hw
      obtain ⟨ih1, ih2, ih3⟩ := ih ((s + 1) % 256) pl (Nat.mod_lt _ (by norm_num)) hw
      simp only [dm_send_events]
      rw [hf1, hf2]
      refine ⟨?_, ?_, ?_⟩
      · rw [ih1]
        simp only [List.length_cons]
        omega
      · simp [ih2]
      · intro i hi
        cases i with
        | zero =>
            simp only [List.singleton_append, List.getD_cons_zero, Nat.add_zero]
            rw [hf3, Nat.mod_eq_of_lt hs]
        | succ j =>
            have hj := ih3 j (by simpa using hi)
            simp only [List.singleton_append, List.getD_cons_succ]
            rw [hj]
            omega

/-- Witness for C8 at a concrete event sequence and counter value. -/
theorem event_seq_consecutive_witness :
    (dm_send_events [dm_event_t.button 2, dm_event_t.page 1, dm_event_t.touch 3 4] 255
        (some { write_bytes := true, log := true })).2 = (255 + 3) % 256 ∧
    ((dm_send_events [dm_event_t.button 2, dm_event_t.page 1, dm_event_t.touch 3 4] 255
        (some { write_bytes := true, log := true })).1.getD 1 []).getD 3 0 = (255 + 1) % 256 := by
  have h := event_seq_consecutive [dm_event_t.button 2, dm_event_t.page 1, dm_event_t.touch 3 4]
    255 { write_bytes := true, log := true } (by decide) rfl
  exact ⟨h.1, h.2.2 1 (by decide)⟩

/- ── Claim C2: CRC single-bit-error detection ───────────────────────────── -/

theorem xor_ne_self (b e : Nat) (he : e ≠ 0) : b ^^^ e ≠ b := by
  intro h
  apply he
  calc e = b ^^^ (b ^^^ e) := (Nat.xor_cancel_left b e).symm
    _ = b ^^^ b := by rw [h]
    _ = 0 := Nat.xor_self b

theorem one_shiftLeft_ne_zero (t : Nat) : (1 <<< t : Nat) ≠ 0 := by
  rw [Nat.shiftLeft_eq, one_mul]
  exact (Nat.two_pow_pos t).ne'

/-- Flipping one data byte perturbs the folded CRC by the flip pattern
advanced through eight rounds per remaining byte. -/
theorem foldl_crc16_flip (pre suf : List Nat) (c b e : Nat) :
    List.foldl crc16_update c (pre ++ (b ^^^ e) :: suf) =
      List.foldl crc16_update c (pre ++ b :: suf) ^^^
        crc16_round^[8 * (suf.length + 1)] (e <<< 8) := by
  rw [List.foldl_append, List.foldl_append, List.foldl_cons, List.foldl_cons,
    crc16_update_xor_byte, foldl_crc16_update_xor, ← Function.iterate_add_apply,
    show 8 * suf.length + 8 = 8 * (suf.length + 1) by ring]

/-- The advanced flip pattern of a single bit never vanishes: the round
map is invertible on 16-bit values and the pattern starts nonzero. -/
theorem crc_delta_ne (k t : Nat) (ht : t < 8) :
    crc16_round^[8 * (k + 1)] ((1 <<< t) <<< 8) ≠ 0 := by
  intro h
  have hx : ((1 <<< t) <<< 8 : Nat) = 2 ^ (t + 8) := by
    rw [Nat.shiftLeft_eq, Nat.shiftLeft_eq, one_mul, ← pow_add]
  have hlt : ((1 <<< t) <<< 8 : Nat) < 65536 := by
    rw [hx]
    calc (2 : Nat) ^ (t + 8) ≤ 2 ^ 15 := Nat.pow_le_pow_right (by norm_num) (by omega)
      _ < 65536 := by norm_num
  have hz := crc16_round_iterate_eq_zero _ _ hlt h
  rw [hx] at hz
  exact (Nat.two_pow_pos (t + 8)).ne' hz

/-- A single-bit flip in any CRC-covered byte changes the folded CRC. -/
theorem crc_flip_ne (pre suf : List Nat) (c b t : Nat) (ht : t < 8) :
    List.foldl crc16_update c (pre ++ (b ^^^ (1 <<< t)) :: suf) ≠
      List.foldl crc16_update c (pre ++ b :: suf) := by
  rw [foldl_crc16_flip]
  intro h
  apply crc_delta_ne suf.length t ht
  have hD := congrArg (fun z => z ^^^ List.foldl crc16_update c (pre ++ b :: suf)) h
  simpa [Nat.xor_assoc, Nat.xor_comm, xor_left_comm, Nat.xor_cancel_right,
    Nat.xor_cancel_left, Nat.xor_self] using hD

/-- Cons-shaped variant of parse_frame_err, matching the shape flip_bit
reductions produce. -/
theorem parse_frame_err_cons (p : dm_parser_t) (v c s l ch cl : Nat) (body : List Nat)
    (h0 : p.state = .PARSE_WAIT_START) (hl : l ≤ DM_MAX_PAYLOAD) (hlen : body.length = l)
    (hcrc : (ch <<< 8) ||| cl ≠ List.foldl crc16_update 0xFFFF ([v, c, s, l] ++ body)) :
    dm_parser_feed_all p (0xAA :: v :: c :: s :: l :: (body ++ [ch, cl])) =
      { p with
        state := .PARSE_WAIT_START
        payload_index := 0
        running_crc := 0xFFFF
        crc_high := 0
        frame := { version := v, command := c, seq_id := s, payload_len := l, payload := write_at p.frame.payload 0 body }
        frames_crc_err := p.frames_crc_err + 1 } := by
  rw [show (0xAA :: v :: c :: s :: l :: (body ++ [ch, cl]) : List Nat)
      = [0xAA, v, c, s, l] ++ body ++ [ch, cl] by simp]
  exact parse_frame_err p v c s l ch cl body h0 hl hlen hcrc

/-- Flipping one bit of one byte inside the tail of a CRC-covered data
list changes the folded CRC. -/
theorem crc_flip_at_ne (hdr bs : List Nat) (i t c : Nat) (hi : i < bs.length) (ht : t < 8) :
    List.foldl crc16_update c (hdr ++ bs.set i (bs.getD i 0 ^^^ (1 <<< t))) ≠
      List.foldl crc16_update c (hdr ++ bs) := by
  have horig : bs = bs.take i ++ bs.getD i 0 :: bs.drop (i + 1) := by
    rw [List.getD_eq_getElem bs 0 hi]
    conv_lhs => rw [← List.take_append_drop i bs]
    rw [List.drop_eq_getElem_cons hi]
  rw [List.set_eq_take_cons_drop _ hi]
  conv_rhs => rw [horig]
  rw [← List.append_assoc, ← List.append_assoc]
  exact crc_flip_ne (hdr ++ bs.take i) (bs.drop (i + 1)) c (bs.getD i 0) t ht

/-- The low CRC byte stays below 256. -/
theorem crc_low_byte_lt (c : Nat) : c &&& 0xFF < 256 :=
  Nat.lt_succ_of_le Nat.and_le_right

/-- A single-bit pattern for a bit position below 8 stays below 256. -/
theorem one_shiftLeft_lt_256 (t : Nat) (ht : t < 8) : (1 <<< t : Nat) < 256 := by
  rw [Nat.shiftLeft_eq, one_mul]
  calc (2 : Nat) ^ t ≤ 2 ^ 7 := Nat.pow_le_pow_right (by norm_num) (by omega)
    _ < 256 := by norm_num

/-- Claim C2 (amended): for every valid serialized frame and every
single-bit flip applied to any byte other than the start byte and the
LEN byte, feeding the corrupted stream to a freshly initialised parser
yields frames_ok = 0, frames_crc_err = 1 and no dispatched frame.
(Flips of the LEN byte at offset 4 are excluded: they desynchronise the
framing itself rather than the CRC check, and need not bump
frames_crc_err — see the counterexample.) -/
theorem single_bit_flip_rejected (cmd seqid : Nat) (payload : List Nat) (j t : Nat)
    (hlen : payload.length ≤ DM_MAX_PAYLOAD)
    (hj1 : 1 ≤ j) (hj4 : j ≠ 4) (hjlt : j < 7 + payload.length) (ht : t < 8) :
    (dm_parser_feed_all dm_parser_init
        (flip_bit (dm_packet_build cmd seqid (some payload) payload.length) j t)).frames_ok
      = 0 ∧
    (dm_parser_feed_all dm_parser_init
        (flip_bit (dm_packet_build cmd seqid (some payload) payload.length) j t)).frames_crc_err
      = 1 ∧
    (dm_parser_feed_all dm_parser_init
        (flip_bit (dm_packet_build cmd seqid (some payload) payload.length) j t)).dispatched
      = [] := by
  rw [dm_packet_build_eq cmd seqid payload hlen]
  set c0 := crc16_ccitt ([DM_PROTOCOL_VERSION, cmd, seqid, payload.length] ++ payload) with hc0
  have hfold : List.foldl crc16_update 0xFFFF
      ([DM_PROTOCOL_VERSION, cmd, seqid, payload.length] ++ payload) = c0 := by
    rw [hc0]
    rfl
  rw [show ([0xAA, DM_PROTOCOL_VERSION, cmd, seqid, payload.length] ++ payload
      ++ [c0 >>> 8, c0 &&& 0xFF] : List Nat)
      = 0xAA :: DM_PROTOCOL_VERSION :: cmd :: seqid :: payload.length
          :: (payload ++ [c0 >>> 8, c0 &&& 0xFF]) by simp]
  rcases j with _ | _ | _ | _ | _ | i
  · omega
  · -- flip in the VERSION byte
    simp only [flip_bit, List.getD_cons_succ, List.getD_cons_zero,
      List.set_cons_succ, List.set_cons_zero]
    have hmis : ((c0 >>> 8) <<< 8) ||| (c0 &&& 0xFF) ≠ List.foldl crc16_update 0xFFFF
        ([DM_PROTOCOL_VERSION ^^^ (1 <<< t), cmd, seqid, payload.length] ++ payload) := by
      rw [show ((c0 >>> 8) <<< 8) ||| (c0 &&& 0xFF) = c0 from crc_split_recombine c0, ← hfold]
      have h := (crc_flip_ne [] ([cmd, seqid, payload.length] ++ payload)
        0xFFFF DM_PROTOCOL_VERSION t ht).symm
      simpa using h
    rw [parse_frame_err_cons dm_parser_init _ cmd seqid payload.length _ _ payload
      (by decide) hlen rfl hmis]
    exact ⟨by simp [dm_parser_init, parser_reset], by simp [dm_parser_init, parser_reset],
      by simp [dm_parser_init, parser_reset]⟩
  · -- flip in the COMMAND byte
    simp only [flip_bit, List.getD_cons_succ, List.getD_cons_zero,
      List.set_cons_succ, List.set_cons_zero]
    have hmis : ((c0 >>> 8) <<< 8) ||| (c0 &&& 0xFF) ≠ List.foldl crc16_update 0xFFFF
        ([DM_PROTOCOL_VERSION, cmd ^^^ (1 <<< t), seqid, payload.length] ++ payload) := by
      rw [show ((c0 >>> 8) <<< 8) ||| (c0 &&& 0xFF) = c0 from crc_split_recombine c0, ← hfold]
      have h := (crc_flip_ne [DM_PROTOCOL_VERSION] ([seqid, payload.length] ++ payload)
        0xFFFF cmd t ht).symm
      simpa using h
    rw [parse_frame_err_cons dm_parser_init DM_PROTOCOL_VERSION _ seqid payload.length _ _ payload
      (by decide) hlen rfl hmis]
    exact ⟨by simp [dm_parser_init, parser_reset], by simp [dm_parser_init, parser_reset],
      by simp [dm_parser_init, parser_reset]⟩
  · -- flip in the SEQ_ID byte
    simp only [flip_bit, List.getD_cons_succ, List.getD_cons_zero,
      List.set_cons_succ, List.set_cons_zero]
    have hmis : ((c0 >>> 8) <<< 8) ||| (c0 &&& 0xFF) ≠ List.foldl crc16_update 0xFFFF
        ([DM_PROTOCOL_VERSION, cmd, seqid ^^^ (1 <<< t), payload.length] ++ payload) := by
      rw [show ((c0 >>> 8) <<< 8) ||| (c0 &&& 0xFF) = c0 from crc_split_recombine c0, ← hfold]
      have h := (crc_flip_ne [DM_PROTOCOL_VERSION, cmd] ([payload.length] ++ payload)
        0xFFFF seqid t ht).symm
      simpa using h
    rw [parse_frame_err_cons dm_parser_init DM_PROTOCOL_VERSION cmd _ payload.length _ _ payload
      (by decide) hlen rfl hmis]
    exact ⟨by simp [dm_parser_init, parser_reset], by simp [dm_parser_init, parser_reset],
      by simp [dm_parser_init, parser_reset]⟩
  · -- the LEN byte is excluded
    exact absurd rfl hj4
  · -- flip at offset 5 + i: payload byte, CRC high byte or CRC low byte
    simp only [flip_bit, List.getD_cons_succ, List.set_cons_succ]
    have hi2 : i < payload.length + 2 := by omega
    rcases Nat.lt_trichotomy i payload.length with hilt | hieq | higt
    · -- payload byte
      have hget : (payload ++ [c0 >>> 8, c0 &&& 0xFF]).getD i 0 = payload.getD i 0 :=
        List.getD_append _ _ _ _ hilt
      have hset : (payload ++ [c0 >>> 8, c0 &&& 0xFF]).set i
            (payload.getD i 0 ^^^ (1 <<< t))
          = payload.set i (payload.getD i 0 ^^^ (1 <<< t)) ++ [c0 >>> 8, c0 &&& 0xFF] :=
        List.set_append_left i _ hilt
      rw [hget, hset]
      have hmis : ((c0 >>> 8) <<< 8) ||| (c0 &&& 0xFF) ≠ List.foldl crc16_update 0xFFFF
          ([DM_PROTOCOL_VERSION, cmd, seqid, payload.length]
            ++ payload.set i (payload.getD i 0 ^^^ (1 <<< t))) := by
        rw [show ((c0 >>> 8) <<< 8) ||| (c0 &&& 0xFF) = c0 from crc_split_recombine c0, ← hfold]
        exact (crc_flip_at_ne [DM_PROTOCOL_VERSION, cmd, seqid, payload.length]
          payload i t 0xFFFF hilt ht).symm
      rw [parse_frame_err_cons dm_parser_init DM_PROTOCOL_VERSION cmd seqid payload.length _ _
        (payload.set i (payload.getD i 0 ^^^ (1 <<< t))) (by decide) hlen (by simp) hmis]
      exact ⟨by simp [dm_parser_init, parser_reset], by simp [dm_parser_init, parser_reset],
      by simp [dm_parser_init, parser_reset]⟩
    · -- CRC high byte
      subst hieq
      have hget : (payload ++ [c0 >>> 8, c0 &&& 0xFF]).getD payload.length 0 = c0 >>> 8 := by
        rw [List.getD_append_right _ _ _ _ (Nat.le_refl _)]
        simp
      have hset : (payload ++ [c0 >>> 8, c0 &&& 0xFF]).set payload.length
            ((c0 >>> 8) ^^^ (1 <<< t))
          = payload ++ [(c0 >>> 8) ^^^ (1 <<< t), c0 &&& 0xFF] := by
        rw [List.set_append_right _ _ (Nat.le_refl _)]
        simp
      rw [hget, hset]
      have hmis : (((c0 >>> 8) ^^^ (1 <<< t)) <<< 8) ||| (c0 &&& 0xFF)
          ≠ List.foldl crc16_update 0xFFFF
            ([DM_PROTOCOL_VERSION, cmd, seqid, payload.length] ++ payload) := by
        rw [hfold]
        intro heq
        have h2 := congrArg (fun z => z >>> 8) heq
        simp only at h2
        rw [lor_high _ _ (crc_low_byte_lt c0)] at h2
        conv_rhs at h2 => rw [← crc_split_recombine c0]
        rw [lor_high _ _ (crc_low_byte_lt c0)] at h2
        exact xor_ne_self (c0 >>> 8) (1 <<< t) (one_shiftLeft_ne_zero t) h2
      rw [parse_frame_err_cons dm_parser_init DM_PROTOCOL_VERSION cmd seqid payload.length _ _
        payload (by decide) hlen rfl hmis]
      exact ⟨by simp [dm_parser_init, parser_reset], by simp [dm_parser_init, parser_reset],
      by simp [dm_parser_init, parser_reset]⟩
    · -- CRC low byte
      have hieq2 : i = payload.length + 1 := by omega
      subst hieq2
      have hget : (payload ++ [c0 >>> 8, c0 &&& 0xFF]).getD (payload.length + 1) 0
          = c0 &&& 0xFF := by
        rw [List.getD_append_right _ _ _ _ (by omega)]
        simp
      have hset : (payload ++ [c0 >>> 8, c0 &&& 0xFF]).set (payload.length + 1)
            ((c0 &&& 0xFF) ^^^ (1 <<< t))
          = payload ++ [c0 >>> 8, (c0 &&& 0xFF) ^^^ (1 <<< t)] := by
        rw [List.set_append_right _ _ (by omega)]
        simp
      rw [hget, hset]
      have hmis : ((c0 >>> 8) <<< 8) ||| ((c0 &&& 0xFF) ^^^ (1 <<< t))
          ≠ List.foldl crc16_update 0xFFFF
            ([DM_PROTOCOL_VERSION, cmd, seqid, payload.length] ++ payload) := by
        rw [hfold]
        intro heq
        have hxlt : (c0 &&& 0xFF) ^^^ (1 <<< t) < 256 := by
          have h1 : (c0 &&& 0xFF) < 2 ^ 8 := crc_low_byte_lt c0
          have h2 : (1 <<< t : Nat) < 2 ^ 8 := one_shiftLeft_lt_256 t ht
          exact Nat.xor_lt_two_pow h1 h2
        have h2 := congrArg (fun z => z &&& 255) heq
        simp only at h2
        rw [lor_low _ _ hxlt] at h2
        conv_rhs at h2 => rw [← crc_split_recombine c0]
        rw [lor_low _ _ (crc_low_byte_lt c0)] at h2
        exact xor_ne_self (c0 &&& 0xFF) (1 <<< t) (one_shiftLeft_ne_zero t) h2
      rw [parse_frame_err_cons dm_parser_init DM_PROTOCOL_VERSION cmd seqid payload.length _ _
        payload (by decide) hlen rfl hmis]
      exact ⟨by simp [dm_parser_init, parser_reset], by simp [dm_parser_init, parser_reset],
      by simp [dm_parser_init, parser_reset]⟩

/-- Claim C2, counterexample to the claim as stated: flip bit 0 of the
LEN byte (offset 4, not the start byte) of the valid PING frame for
cmd 1, seq 0x7B, empty payload.  The parser then treats the first CRC
byte as payload and runs out of stream mid-frame: frames_ok = 0 holds but
frames_crc_err stays 0, refuting the claimed frames_crc_err >= 1. -/
theorem single_bit_flip_rejected_counterexample :
    dm_packet_build 1 0x7B (some []) 0 = [0xAA, 1, 1, 0x7B, 0, 0x11, 0xE7] ∧
    (dm_parser_feed_all dm_parser_init (dm_packet_build 1 0x7B (some []) 0)).frames_ok = 1 ∧
    flip_bit (dm_packet_build 1 0x7B (some []) 0) 4 0 = [0xAA, 1, 1, 0x7B, 1, 0x11, 0xE7] ∧
    (dm_parser_feed_all dm_parser_init
        (flip_bit (dm_packet_build 1 0x7B (some []) 0) 4 0)).frames_ok = 0 ∧
    (dm_parser_feed_all dm_parser_init
        (flip_bit (dm_packet_build 1 0x7B (some []) 0) 4 0)).frames_crc_err = 0 ∧
    (dm_parser_feed_all dm_parser_init
        (flip_bit (dm_packet_build 1 0x7B (some []) 0) 4 0)).state
      = .PARSE_CRC_LOW := by
  refine ⟨by decide, by decide, by decide, by decide, by decide, by decide⟩

/-- Witness for the amended C2 theorem: flip bit 0 of the COMMAND byte of
a valid one-byte-payload frame; the corrupted stream is counted as
exactly one CRC error and nothing is dispatched. -/
theorem single_bit_flip_rejected_witness :
    (dm_parser_feed_all dm_parser_init
        (flip_bit (dm_packet_build 1 0x7B (some [9]) 1) 2 0)).frames_ok = 0 ∧
    (dm_parser_feed_all dm_parser_init
        (flip_bit (dm_packet_build 1 0x7B (some [9]) 1) 2 0)).frames_crc_err = 1 :=
  ⟨(single_bit_flip_rejected 1 0x7B [9] 2 0 (by decide) (by decide) (by decide) (by decide)
      (by decide)).1,
   (single_bit_flip_rejected 1 0x7B [9] 2 0 (by decide) (by decide) (by decide) (by decide)
      (by decide)).2.1⟩
